import Mathlib

/-!
Shallow embedding of the plakar snapshot/state core, checked against its
natural-language specification.

Modelling conventions:
* A 32-byte MAC (`[32]byte`) is modelled as a `Nat` (its 256-bit value); the
  Go zero value `[32]byte{}` is the value `0`.
* A Go `map[K]V` is modelled as an association list with unique keys in
  insertion order (`goFind` / `goInsert` / `goContains`); iteration in the
  model follows list order, a deterministic refinement of Go's unspecified
  iteration order.
* Go methods that mutate their receiver become functions returning the new
  value; functions that both return a result and mutate return a pair.
* `sync.Mutex` fields guard the very operations modelled here; locking has no
  observable effect on the sequential semantics and is dropped.
-/

namespace Plakar

/-- First-match lookup in an association list, modelling `m[k]` (comma-ok form)
for a Go map. -/
def goFind {K V : Type} [DecidableEq K] : List (K × V) → K → Option V
  | [], _ => none
  | (k', v') :: rest, k => if k' = k then some v' else goFind rest k

/-- Assignment `m[k] = v` on a Go map: replace the binding if the key is
present, otherwise append it. Preserves uniqueness of keys. -/
def goInsert {K V : Type} [DecidableEq K] : List (K × V) → K → V → List (K × V)
  | [], k, v => [(k, v)]
  | (k', v') :: rest, k, v =>
      if k' = k then (k, v) :: rest else (k', v') :: goInsert rest k v

/-- Key-membership test on a Go map. -/
def goContains {K V : Type} [DecidableEq K] (m : List (K × V)) (k : K) : Bool :=
  (goFind m k).isSome

/-- Keys of an association list. -/
def goKeys {K V : Type} (m : List (K × V)) : List K := m.map Prod.fst

/-- `[32]byte` fingerprints, modelled as their numeric value. -/
abbrev MAC := Nat

/-- 4-byte little-endian rendering of a `uint32`, as
`binary.LittleEndian.PutUint32` writes it. -/
def u32le (v : Nat) : List Nat :=
  [v % 256, v / 256 % 256, v / 65536 % 256, v / 16777216 % 256]

/-- `binary.LittleEndian.Uint32` over a 4-byte slice. -/
def leUint32 (bs : List Nat) : Nat :=
  match bs with
  | [b0, b1, b2, b3] => b0 + 256 * b1 + 65536 * b2 + 16777216 * b3
  | _ => 0

namespace state

/-- `const VERSION = 100` in `repository/state/state.go`. -/
def VERSION : Nat := 100

/-- `type Location struct { Packfile uint64; Offset uint32; Length uint32 }`. -/
structure Location where
  Packfile : Nat
  Offset : Nat
  Length : Nat
deriving DecidableEq, Repr

/-- `type Metadata struct { Version uint32; CreationTime time.Time;
Extends [][32]byte }`; `time.Time` is modelled as a `Nat` timestamp. -/
structure Metadata where
  Version : Nat
  CreationTime : Nat
  Extends : List MAC
deriving DecidableEq, Repr

/-- `type State struct`: the intern table (`checksumToId`, `IdToChecksum`),
the five per-kind location maps, the metadata and the dirty flag.
`checksumToId` and `dirty` are unexported in Go and not persisted. -/
structure State where
  checksumToId : List (MAC × Nat)
  IdToChecksum : List (Nat × MAC)
  Chunks : List (Nat × Location)
  Objects : List (Nat × Location)
  Files : List (Nat × Location)
  Directories : List (Nat × Location)
  Blobs : List (Nat × Location)
  Metadata : Metadata
  dirty : Bool
deriving DecidableEq, Repr

/-- `New()`; `time.Now()` is modelled as creation time `0`. -/
def State.new : State :=
  { checksumToId := []
    IdToChecksum := []
    Chunks := []
    Objects := []
    Files := []
    Directories := []
    Blobs := []
    Metadata := { Version := VERSION, CreationTime := 0, Extends := [] }
    dirty := false }

/-- `rebuildChecksums`: rebuild `checksumToId` by reversing `IdToChecksum`. -/
def State.rebuildChecksums (st : State) : State :=
  { st with checksumToId :=
      st.IdToChecksum.foldl (fun acc p => goInsert acc p.2 p.1) [] }

/-- `getOrCreateIdForChecksum`: return the existing id, or assign
`uint64(len(st.IdToChecksum))` and insert both directions. -/
def State.getOrCreateIdForChecksum (st : State) (checksum : MAC) : Nat × State :=
  match goFind st.checksumToId checksum with
  | some id => (id, st)
  | none =>
      let newID := st.IdToChecksum.length
      (newID,
       { st with
          checksumToId := goInsert st.checksumToId checksum newID
          IdToChecksum := goInsert st.IdToChecksum newID checksum })

/-- `Extends(stateID)`: append to `Metadata.Extends`. -/
def State.Extends (st : State) (stateID : MAC) : State :=
  { st with Metadata := { st.Metadata with Extends := st.Metadata.Extends ++ [stateID] } }

/-- `Dirty()`. -/
def State.Dirty (st : State) : Bool := st.dirty

/-- `ResetDirty()`. -/
def State.ResetDirty (st : State) : State := { st with dirty := false }

/-- `SetPackfileForChunk`: intern both MACs, then insert into `Chunks` only if
the chunk id is not already present, setting the dirty flag. -/
def State.SetPackfileForChunk (st : State) (packfileChecksum chunkChecksum : MAC)
    (packfileOffset chunkLength : Nat) : State :=
  let r1 := st.getOrCreateIdForChecksum packfileChecksum
  let packfileID := r1.1
  let st := r1.2
  let r2 := st.getOrCreateIdForChecksum chunkChecksum
  let chunkID := r2.1
  let st := r2.2
  if goContains st.Chunks chunkID then st
  else
    { st with
        Chunks := goInsert st.Chunks chunkID
          { Packfile := packfileID, Offset := packfileOffset, Length := chunkLength }
        dirty := true }

/-- `SetPackfileForObject`: as `SetPackfileForChunk` but on `Objects`. -/
def State.SetPackfileForObject (st : State) (packfileChecksum objectChecksum : MAC)
    (packfileOffset chunkLength : Nat) : State :=
  let r1 := st.getOrCreateIdForChecksum packfileChecksum
  let packfileID := r1.1
  let st := r1.2
  let r2 := st.getOrCreateIdForChecksum objectChecksum
  let objectID := r2.1
  let st := r2.2
  if goContains st.Objects objectID then st
  else
    { st with
        Objects := goInsert st.Objects objectID
          { Packfile := packfileID, Offset := packfileOffset, Length := chunkLength }
        dirty := true }

/-- `SetPackfileForFile`: the Go source guards on `st.Files` but assigns
`st.Objects[fileID] = ...` — the assignment to the `Objects` map is kept
exactly as written. -/
def State.SetPackfileForFile (st : State) (packfileChecksum fileChecksum : MAC)
    (packfileOffset chunkLength : Nat) : State :=
  let r1 := st.getOrCreateIdForChecksum packfileChecksum
  let packfileID := r1.1
  let st := r1.2
  let r2 := st.getOrCreateIdForChecksum fileChecksum
  let fileID := r2.1
  let st := r2.2
  if goContains st.Files fileID then st
  else
    { st with
        Objects := goInsert st.Objects fileID
          { Packfile := packfileID, Offset := packfileOffset, Length := chunkLength }
        dirty := true }

/-- `SetPackfileForDirectory`: guards on `st.Directories` but assigns
`st.Objects[directoryID] = ...`, exactly as the Go source does. -/
def State.SetPackfileForDirectory (st : State) (packfileChecksum directoryChecksum : MAC)
    (packfileOffset chunkLength : Nat) : State :=
  let r1 := st.getOrCreateIdForChecksum packfileChecksum
  let packfileID := r1.1
  let st := r1.2
  let r2 := st.getOrCreateIdForChecksum directoryChecksum
  let directoryID := r2.1
  let st := r2.2
  if goContains st.Directories directoryID then st
  else
    { st with
        Objects := goInsert st.Objects directoryID
          { Packfile := packfileID, Offset := packfileOffset, Length := chunkLength }
        dirty := true }

/-- `SetPackfileForBlob`: guards on `st.Blobs` but assigns
`st.Objects[blobID] = ...`, exactly as the Go source does. -/
def State.SetPackfileForBlob (st : State) (packfileChecksum blobChecksum : MAC)
    (packfileOffset chunkLength : Nat) : State :=
  let r1 := st.getOrCreateIdForChecksum packfileChecksum
  let packfileID := r1.1
  let st := r1.2
  let r2 := st.getOrCreateIdForChecksum blobChecksum
  let blobID := r2.1
  let st := r2.2
  if goContains st.Blobs blobID then st
  else
    { st with
        Objects := goInsert st.Objects blobID
          { Packfile := packfileID, Offset := packfileOffset, Length := chunkLength }
        dirty := true }

/-- `GetSubpartForChunk`: intern the MAC, look up `Chunks`, resolve the
packfile id through `IdToChecksum` (Go yields the zero MAC when the id is
absent). Returns the `(packfile, offset, length, ok)` result and the state
(the intern step may mutate it). -/
def State.GetSubpartForChunk (st : State) (chunkChecksum : MAC) :
    Option (MAC × Nat × Nat) × State :=
  let r := st.getOrCreateIdForChecksum chunkChecksum
  let chunkID := r.1
  let st := r.2
  match goFind st.Chunks chunkID with
  | none => (none, st)
  | some subpart =>
      (some ((goFind st.IdToChecksum subpart.Packfile).getD 0, subpart.Offset, subpart.Length), st)

/-- `GetSubpartForObject`. -/
def State.GetSubpartForObject (st : State) (objectChecksum : MAC) :
    Option (MAC × Nat × Nat) × State :=
  let r := st.getOrCreateIdForChecksum objectChecksum
  let objectID := r.1
  let st := r.2
  match goFind st.Objects objectID with
  | none => (none, st)
  | some subpart =>
      (some ((goFind st.IdToChecksum subpart.Packfile).getD 0, subpart.Offset, subpart.Length), st)

/-- `GetSubpartForFile`: reads the `Files` map. -/
def State.GetSubpartForFile (st : State) (checksum : MAC) :
    Option (MAC × Nat × Nat) × State :=
  let r := st.getOrCreateIdForChecksum checksum
  let fileID := r.1
  let st := r.2
  match goFind st.Files fileID with
  | none => (none, st)
  | some subpart =>
      (some ((goFind st.IdToChecksum subpart.Packfile).getD 0, subpart.Offset, subpart.Length), st)

/-- `GetSubpartForDirectory`: reads the `Directories` map. -/
def State.GetSubpartForDirectory (st : State) (checksum : MAC) :
    Option (MAC × Nat × Nat) × State :=
  let r := st.getOrCreateIdForChecksum checksum
  let directoryID := r.1
  let st := r.2
  match goFind st.Directories directoryID with
  | none => (none, st)
  | some subpart =>
      (some ((goFind st.IdToChecksum subpart.Packfile).getD 0, subpart.Offset, subpart.Length), st)

/-- `GetSubpartForBlob`: reads the `Blobs` map. -/
def State.GetSubpartForBlob (st : State) (checksum : MAC) :
    Option (MAC × Nat × Nat) × State :=
  let r := st.getOrCreateIdForChecksum checksum
  let blobID := r.1
  let st := r.2
  match goFind st.Blobs blobID with
  | none => (none, st)
  | some subpart =>
      (some ((goFind st.IdToChecksum subpart.Packfile).getD 0, subpart.Offset, subpart.Length), st)

/-- `ChunkExists`: intern, then key-only check of `Chunks`. -/
def State.ChunkExists (st : State) (chunkChecksum : MAC) : Bool × State :=
  let r := st.getOrCreateIdForChecksum chunkChecksum
  (goContains r.2.Chunks r.1, r.2)

/-- `ObjectExists`: key-only check of `Objects`. -/
def State.ObjectExists (st : State) (objectChecksum : MAC) : Bool × State :=
  let r := st.getOrCreateIdForChecksum objectChecksum
  (goContains r.2.Objects r.1, r.2)

/-- `FileExists`: key-only check of `Files`. -/
def State.FileExists (st : State) (checksum : MAC) : Bool × State :=
  let r := st.getOrCreateIdForChecksum checksum
  (goContains r.2.Files r.1, r.2)

/-- `DirectoryExists`: key-only check of `Directories`. -/
def State.DirectoryExists (st : State) (checksum : MAC) : Bool × State :=
  let r := st.getOrCreateIdForChecksum checksum
  (goContains r.2.Directories r.1, r.2)

/-- `BlobExists`: the Go source locks `muBlobs` but performs the lookup on
`st.Directories[checksumID]` — kept exactly as written. -/
def State.BlobExists (st : State) (checksum : MAC) : Bool × State :=
  let r := st.getOrCreateIdForChecksum checksum
  (goContains r.2.Directories r.1, r.2)

/-- `Merge(stateID, deltaState)`: for each kind, translate the delta's ids
back to MACs through the delta's `IdToChecksum` (zero MAC when absent, as a
Go map read yields) and call the corresponding `SetPackfileFor*` on `st`.
`stateID` is ignored by the Go source. -/
def State.Merge (st : State) (stateID : MAC) (deltaState : State) : State :=
  let st := deltaState.Chunks.foldl
    (fun acc e =>
      acc.SetPackfileForChunk
        ((goFind deltaState.IdToChecksum e.2.Packfile).getD 0)
        ((goFind deltaState.IdToChecksum e.1).getD 0)
        e.2.Offset e.2.Length) st
  let st := deltaState.Objects.foldl
    (fun acc e =>
      acc.SetPackfileForObject
        ((goFind deltaState.IdToChecksum e.2.Packfile).getD 0)
        ((goFind deltaState.IdToChecksum e.1).getD 0)
        e.2.Offset e.2.Length) st
  let st := deltaState.Files.foldl
    (fun acc e =>
      acc.SetPackfileForFile
        ((goFind deltaState.IdToChecksum e.2.Packfile).getD 0)
        ((goFind deltaState.IdToChecksum e.1).getD 0)
        e.2.Offset e.2.Length) st
  let st := deltaState.Directories.foldl
    (fun acc e =>
      acc.SetPackfileForDirectory
        ((goFind deltaState.IdToChecksum e.2.Packfile).getD 0)
        ((goFind deltaState.IdToChecksum e.1).getD 0)
        e.2.Offset e.2.Length) st
  let st := deltaState.Blobs.foldl
    (fun acc e =>
      acc.SetPackfileForBlob
        ((goFind deltaState.IdToChecksum e.2.Packfile).getD 0)
        ((goFind deltaState.IdToChecksum e.1).getD 0)
        e.2.Offset e.2.Length) st
  st

/-- Modelled from the spec: `msgpack.Marshal` comes from a library outside
src/, and the spec fixes only a "msgpack-style tagged encoding of the
persisted fields". The model uses a concrete self-delimiting byte encoding:
a natural number is a run of 1-bytes closed by a 0-byte. -/
def encNat (n : Nat) : List Nat := List.replicate n 1 ++ [0]

/-- Decoder for `encNat`, returning the value and the remaining bytes. -/
def decNat : List Nat → Option (Nat × List Nat)
  | 0 :: rest => some (0, rest)
  | 1 :: rest =>
      match decNat rest with
      | none => none
      | some (n, rest') => some (n + 1, rest')
  | _ => none

/-- Pair encoder: first component then second. -/
def encPair {A B : Type} (f : A → List Nat) (g : B → List Nat) (p : A × B) : List Nat :=
  f p.1 ++ g p.2

/-- Pair decoder. -/
def decPair {A B : Type} (df : List Nat → Option (A × List Nat))
    (dg : List Nat → Option (B × List Nat)) (bs : List Nat) :
    Option ((A × B) × List Nat) :=
  match df bs with
  | none => none
  | some (a, bs1) =>
      match dg bs1 with
      | none => none
      | some (b, bs2) => some ((a, b), bs2)

/-- Sequence encoder: length prefix followed by the encoded elements. -/
def encSeq {A : Type} (f : A → List Nat) (l : List A) : List Nat :=
  encNat l.length ++ l.foldr (fun a acc => f a ++ acc) []

/-- Count-driven sequence decoder. -/
def decCount {A : Type} (df : List Nat → Option (A × List Nat)) :
    Nat → List Nat → Option (List A × List Nat)
  | 0, bs => some ([], bs)
  | Nat.succ n, bs =>
      match df bs with
      | none => none
      | some (a, bs1) =>
          match decCount df n bs1 with
          | none => none
          | some (l, bs2) => some (a :: l, bs2)

/-- Sequence decoder matching `encSeq`. -/
def decSeq {A : Type} (df : List Nat → Option (A × List Nat)) (bs : List Nat) :
    Option (List A × List Nat) :=
  match decNat bs with
  | none => none
  | some (n, bs1) => decCount df n bs1

/-- `Location` encoder: the three fields in order. -/
def encLocation (l : Location) : List Nat :=
  encNat l.Packfile ++ encNat l.Offset ++ encNat l.Length

/-- `Location` decoder. -/
def decLocation (bs : List Nat) : Option (Location × List Nat) :=
  match decNat bs with
  | none => none
  | some (p, bs1) =>
      match decNat bs1 with
      | none => none
      | some (o, bs2) =>
          match decNat bs2 with
          | none => none
          | some (len, bs3) =>
              some ({ Packfile := p, Offset := o, Length := len }, bs3)

/-- Modelled from the spec: `msgpack.Marshal(st)` marshals the exported
(persisted) fields of `State` — `IdToChecksum`, the five kind maps, and
`Metadata` — in declaration order; the unexported `checksumToId` and
`dirty` are not persisted. -/
def msgpackMarshal (st : State) : List Nat :=
  encSeq (encPair encNat encNat) st.IdToChecksum ++
  encSeq (encPair encNat encLocation) st.Chunks ++
  encSeq (encPair encNat encLocation) st.Objects ++
  encSeq (encPair encNat encLocation) st.Files ++
  encSeq (encPair encNat encLocation) st.Directories ++
  encSeq (encPair encNat encLocation) st.Blobs ++
  encNat st.Metadata.Version ++ encNat st.Metadata.CreationTime ++
  encSeq encNat st.Metadata.Extends

/-- Modelled from the spec: `msgpack.Unmarshal` reconstructs the persisted
fields; the unexported fields take their Go zero values (`nil` map, clear
dirty flag). -/
def msgpackUnmarshal (bs : List Nat) : Option (State × List Nat) :=
  match decSeq (decPair decNat decNat) bs with
  | none => none
  | some (idToChecksum, bs1) =>
  match decSeq (decPair decNat decLocation) bs1 with
  | none => none
  | some (chunks, bs2) =>
  match decSeq (decPair decNat decLocation) bs2 with
  | none => none
  | some (objectsM, bs3) =>
  match decSeq (decPair decNat decLocation) bs3 with
  | none => none
  | some (filesM, bs4) =>
  match decSeq (decPair decNat decLocation) bs4 with
  | none => none
  | some (directoriesM, bs5) =>
  match decSeq (decPair decNat decLocation) bs5 with
  | none => none
  | some (blobsM, bs6) =>
  match decNat bs6 with
  | none => none
  | some (version, bs7) =>
  match decNat bs7 with
  | none => none
  | some (ctime, bs8) =>
  match decSeq decNat bs8 with
  | none => none
  | some (extendsL, bs9) =>
      some ({ checksumToId := []
              IdToChecksum := idToChecksum
              Chunks := chunks
              Objects := objectsM
              Files := filesM
              Directories := directoriesM
              Blobs := blobsM
              Metadata := { Version := version, CreationTime := ctime, Extends := extendsL }
              dirty := false }, bs9)

/-- `Serialize()`: the msgpack body followed by the 4-byte little-endian
`st.Metadata.Version` trailer. -/
def State.Serialize (st : State) : List Nat :=
  msgpackMarshal st ++ u32le st.Metadata.Version

/-- `NewFromBytes`: reject inputs shorter than 4 bytes, split off the 4-byte
trailer, reject versions other than `VERSION`, unmarshal the body, then
`rebuildChecksums`. Errors are modelled as `none`. -/
def NewFromBytes (serialized : List Nat) : Option State :=
  if serialized.length < 4 then none
  else if leUint32 (serialized.drop (serialized.length - 4)) ≠ VERSION then none
  else
    match msgpackUnmarshal (serialized.take (serialized.length - 4)) with
    | none => none
    | some (st, rest) => if rest.isEmpty then some st.rebuildChecksums else none

/-- The state `msgpack.Unmarshal` reconstructs from `msgpackMarshal st`:
the persisted fields of `st`, with the unexported fields zeroed. -/
def unmarshalImage (st : State) : State :=
  { st with checksumToId := [], dirty := false }

/-- Observer (specification side): the location registered in the kind map
`kindMap` for MAC `m`, rendered as `(packfile MAC, offset, length)` the way
the `GetSubpartFor*` family renders it, but without the interning side
effect. -/
def contentIn (kindMap : List (Nat × Location)) (st : State) (m : MAC) :
    Option (MAC × Nat × Nat) :=
  match goFind st.checksumToId m with
  | none => none
  | some id =>
      (goFind kindMap id).map
        (fun l => ((goFind st.IdToChecksum l.Packfile).getD 0, l.Offset, l.Length))

/-- Per-kind MAC-to-location contents of the `Chunks` map. -/
def State.chunksContent (st : State) (m : MAC) : Option (MAC × Nat × Nat) :=
  contentIn st.Chunks st m

/-- Per-kind MAC-to-location contents of the `Objects` map. -/
def State.objectsContent (st : State) (m : MAC) : Option (MAC × Nat × Nat) :=
  contentIn st.Objects st m

/-- Per-kind MAC-to-location contents of the `Files` map. -/
def State.filesContent (st : State) (m : MAC) : Option (MAC × Nat × Nat) :=
  contentIn st.Files st m

/-- Per-kind MAC-to-location contents of the `Directories` map. -/
def State.directoriesContent (st : State) (m : MAC) : Option (MAC × Nat × Nat) :=
  contentIn st.Directories st m

/-- Per-kind MAC-to-location contents of the `Blobs` map. -/
def State.blobsContent (st : State) (m : MAC) : Option (MAC × Nat × Nat) :=
  contentIn st.Blobs st m

/-- Two states agree on one kind when every MAC carrying a location in both
carries the same `(packfile, offset, length)` in both. -/
def kindAgree (f : State → MAC → Option (MAC × Nat × Nat)) (a b : State) : Prop :=
  ∀ ⦃m la lb⦄, f a m = some la → f b m = some lb → la = lb

/-- Two states agree on the location of every (kind, MAC) pair present in
both (the hypothesis of the merge-commutativity property). -/
def StatesAgree (a b : State) : Prop :=
  kindAgree State.chunksContent a b ∧ kindAgree State.objectsContent a b ∧
  kindAgree State.filesContent a b ∧ kindAgree State.directoriesContent a b ∧
  kindAgree State.blobsContent a b

/-- Concrete state: packfile MAC `10`, blob MAC `20` registered as an
*object* at `(offset 5, length 7)`. -/
def mergeExA : State :=
  { State.new with
      checksumToId := [(10, 0), (20, 1)]
      IdToChecksum := [(0, 10), (1, 20)]
      Objects := [(1, { Packfile := 0, Offset := 5, Length := 7 })] }

/-- Concrete state: packfile MAC `30`, the same blob MAC `20` registered as a
*file* at `(offset 9, length 11)`. -/
def mergeExB : State :=
  { State.new with
      checksumToId := [(30, 0), (20, 1)]
      IdToChecksum := [(0, 30), (1, 20)]
      Files := [(1, { Packfile := 0, Offset := 9, Length := 11 })] }

/-- Concrete state whose `IdToChecksum` registers the same MAC `7` under the
two ids `0` and `1`; its version is the supported one. -/
def c4Bad : State :=
  { State.new with IdToChecksum := [(0, 7), (1, 7)] }

/-- What `NewFromBytes` returns on `c4Bad.Serialize`: the persisted fields of
`c4Bad` with `checksumToId` rebuilt, which maps MAC `7` to the *last* id. -/
def c4BadDecoded : State :=
  { State.new with IdToChecksum := [(0, 7), (1, 7)], checksumToId := [(7, 1)] }

/-- The two directions of the intern table are exact inverses of one
another. -/
def exactInverse (f : List (MAC × Nat)) (g : List (Nat × MAC)) : Prop :=
  ∀ mac id, goFind f mac = some id ↔ goFind g id = some mac

/-- The intern-table invariant: both directions have unique keys,
`IdToChecksum` has exactly the contiguous key set `[0, N)` for
`N = len(IdToChecksum)`, and `checksumToId` is its exact inverse. -/
def WellFormedIntern (st : State) : Prop :=
  (goKeys st.checksumToId).Nodup ∧ (goKeys st.IdToChecksum).Nodup ∧
  (∀ id, goContains st.IdToChecksum id = true ↔ id < st.IdToChecksum.length) ∧
  exactInverse st.checksumToId st.IdToChecksum

/-- A sequence of `getOrCreateIdForChecksum` calls, discarding the returned
ids. -/
def internAll (st : State) (macs : List MAC) : State :=
  macs.foldl (fun acc c => (acc.getOrCreateIdForChecksum c).2) st

end state

namespace snapshot

/-- Modelled from the spec: the `packfile` package is not under src/; the
spec fixes the blob-type tag as one persisted byte per kind. The concrete
numeric values are internal to that package; the claims depend only on the
tags being fixed constants. -/
def TYPE_SNAPSHOT : Nat := 0

/-- Blob-type tag for chunks (see `TYPE_SNAPSHOT`). -/
def TYPE_CHUNK : Nat := 1

/-- Blob-type tag for objects (see `TYPE_SNAPSHOT`). -/
def TYPE_OBJECT : Nat := 2

/-- Blob-type tag for file entries (see `TYPE_SNAPSHOT`). -/
def TYPE_FILE : Nat := 3

/-- Blob-type tag for directory entries (see `TYPE_SNAPSHOT`). -/
def TYPE_DIRECTORY : Nat := 4

/-- Blob-type tag for data blobs (see `TYPE_SNAPSHOT`). -/
def TYPE_DATA : Nat := 5

/-- `type PackerMsg struct { Timestamp; Type uint8; Checksum [32]byte;
Data []byte }`. The `Timestamp` field only feeds a trace log and is dropped;
the Go field `Type` is spelled `BlobType` because `Type` is reserved in
Lean. -/
structure PackerMsg where
  BlobType : Nat
  Checksum : MAC
  Data : List Nat
deriving DecidableEq, Repr

/-- The part of `type Snapshot struct` that the Put*/Commit claims observe:
`packerChan`, modelled as the queue of pending messages plus a closed flag.
The repository, state delta, header and statistics fields do not influence
whether a Put* reaches the channel. -/
structure Snapshot where
  packerChanClosed : Bool
  packerChan : List PackerMsg
deriving DecidableEq, Repr

/-- Outcome of a Go call: a normal return, an error return, or a runtime
panic. -/
inductive GoResult (A : Type) where
  | ok (val : A)
  | err (msg : String)
  | panicked (msg : String)
deriving DecidableEq, Repr

/-- True exactly on the `err` outcome. -/
def GoResult.isErr {A : Type} : GoResult A → Bool
  | .err _ => true
  | _ => false

/-- `snap.packerChan <- msg`: Go's send on a closed channel panics at
runtime; on an open channel the message is queued (possibly after blocking,
which has no observable effect here). -/
def sendPackerMsg (snap : Snapshot) (msg : PackerMsg) : GoResult Snapshot :=
  if snap.packerChanClosed then GoResult.panicked "send on closed channel"
  else GoResult.ok { snap with packerChan := snap.packerChan ++ [msg] }

/-- `PutChunk(checksum, data)`: seal the payload via `snap.repository.Encode`
(modelled by the `encode` parameter, `none` = error return), then send a
`TYPE_CHUNK` message. Statistics counters are dropped. -/
def Snapshot.PutChunk (encode : List Nat → Option (List Nat)) (snap : Snapshot)
    (checksum : MAC) (data : List Nat) : GoResult Snapshot :=
  match encode data with
  | none => GoResult.err "encode"
  | some encoded =>
      sendPackerMsg snap { BlobType := TYPE_CHUNK, Checksum := checksum, Data := encoded }

/-- `PutObject`, as `PutChunk` with the `TYPE_OBJECT` tag. -/
def Snapshot.PutObject (encode : List Nat → Option (List Nat)) (snap : Snapshot)
    (checksum : MAC) (data : List Nat) : GoResult Snapshot :=
  match encode data with
  | none => GoResult.err "encode"
  | some encoded =>
      sendPackerMsg snap { BlobType := TYPE_OBJECT, Checksum := checksum, Data := encoded }

/-- `PutFile`, as `PutChunk` with the `TYPE_FILE` tag. -/
def Snapshot.PutFile (encode : List Nat → Option (List Nat)) (snap : Snapshot)
    (checksum : MAC) (data : List Nat) : GoResult Snapshot :=
  match encode data with
  | none => GoResult.err "encode"
  | some encoded =>
      sendPackerMsg snap { BlobType := TYPE_FILE, Checksum := checksum, Data := encoded }

/-- `PutDirectory`, as `PutChunk` with the `TYPE_DIRECTORY` tag. -/
def Snapshot.PutDirectory (encode : List Nat → Option (List Nat)) (snap : Snapshot)
    (checksum : MAC) (data : List Nat) : GoResult Snapshot :=
  match encode data with
  | none => GoResult.err "encode"
  | some encoded =>
      sendPackerMsg snap { BlobType := TYPE_DIRECTORY, Checksum := checksum, Data := encoded }

/-- `PutData`, as `PutChunk` with the `TYPE_DATA` tag. -/
def Snapshot.PutData (encode : List Nat → Option (List Nat)) (snap : Snapshot)
    (checksum : MAC) (data : List Nat) : GoResult Snapshot :=
  match encode data with
  | none => GoResult.err "encode"
  | some encoded =>
      sendPackerMsg snap { BlobType := TYPE_DATA, Checksum := checksum, Data := encoded }

/-- `PutHeader`, as `PutChunk` with the `TYPE_SNAPSHOT` tag. -/
def Snapshot.PutHeader (encode : List Nat → Option (List Nat)) (snap : Snapshot)
    (checksum : MAC) (data : List Nat) : GoResult Snapshot :=
  match encode data with
  | none => GoResult.err "encode"
  | some encoded =>
      sendPackerMsg snap { BlobType := TYPE_SNAPSHOT, Checksum := checksum, Data := encoded }

/-- The channel-closing step of `Commit`: after the header message has been
enqueued, `Commit` runs `close(snapshot.packerChan)`. The later commit steps
(waiting on `packerChanDone`, serializing and storing the state delta) do
not touch the channel and are not needed by the claims. -/
def Snapshot.commitCloseChannel (snap : Snapshot) : Snapshot :=
  { snap with packerChanClosed := true }

/-- Modelled from the spec: the `packfile` package is not under src/.
`PutPackfile` consumes only the byte strings returned by
`pack.SerializeData()` (the data area: concatenated sealed payloads),
`pack.SerializeIndex()` and `pack.SerializeFooter()`, plus
`pack.Footer.Version`; the model carries exactly those. -/
structure PackFile where
  serializedData : List Nat
  serializedIndex : List Nat
  serializedFooter : List Nat
  footerVersion : Nat
deriving DecidableEq, Repr

/-- The serialization part of `PutPackfile`: data area, then the codec-sealed
index, the codec-sealed footer, the 4-byte little-endian
`pack.Footer.Version`, and the single byte `uint8(len(encryptedFooter))` — a
truncating Go conversion, hence mod 256. `encode` stands for `repo.Encode`,
the repository codec seal; a seal failure makes `PutPackfile` return before
anything is written, so the serialized form concerns the success path. -/
def putPackfileSerialized (encode : List Nat → List Nat) (pack : PackFile) : List Nat :=
  let serializedData := pack.serializedData
  let encryptedIndex := encode pack.serializedIndex
  let encryptedFooter := encode pack.serializedFooter
  let encryptedFooterLength := encryptedFooter.length % 256
  let versionBytes := u32le pack.footerVersion
  serializedData ++ encryptedIndex ++ encryptedFooter ++ versionBytes ++ [encryptedFooterLength]

/-- The backend write performed by `PutPackfile`:
`repo.PutPackfile(checksum32, serializedPackfile)` where `checksum32` is
`snap.repository.Checksum(serializedPackfile)` (modelled by the `checksum`
parameter). Returns the `(key, value)` pair written. -/
def putPackfileWrite (encode : List Nat → List Nat) (checksum : List Nat → MAC)
    (pack : PackFile) : MAC × List Nat :=
  (checksum (putPackfileSerialized encode pack), putPackfileSerialized encode pack)

end snapshot

namespace vfs

/-- Modelled from the spec: the vfs package `VERSION` constant is defined
outside the provided sources; its value is irrelevant to the claims. -/
def VERSION : Nat := 1

/-- Modelled from the spec: Windows alternate data stream record; the field
layout is internal to the vfs package and irrelevant to the claims. -/
structure AlternateDataStream where
  Name : String
  Content : List Nat
deriving DecidableEq, Repr

/-- Modelled from the spec: custom-metadata record attached to entries and
objects. -/
structure CustomMetadata where
  Key : String
  Value : List Nat
deriving DecidableEq, Repr

/-- `type ExtendedAttribute struct { Name string; Value []byte }` (the vfs
package's record built in `NewFileEntry`). -/
structure ExtendedAttribute where
  Name : String
  Value : List Nat
deriving DecidableEq, Repr

/-- Modelled from the spec: `objects.Object`, the content-object blob; only
the fields the claims inspect are carried. A Go nil slice is `none`, a
non-nil slice `some`. -/
structure FileObject where
  ContentType : String
  CustomMetadata : Option (List CustomMetadata)
  Tags : Option (List String)
deriving DecidableEq, Repr

/-- `type FileEntry struct` from the vfs sources. Go nil-able slices are
`Option (List _)` (`none` = nil) and the nil-able `*objects.Object` pointer
is `Option FileObject`; the Go field `Type` is spelled `RecordType` because
`Type` is reserved in Lean; `importer.RecordType` and `objects.FileInfo` are
opaque values. -/
structure FileEntry where
  Version : Nat
  ParentPath : String
  RecordType : Nat
  FileInfo : Nat
  SymlinkTarget : String
  Object : Option FileObject
  AlternateDataStreams : Option (List AlternateDataStream)
  SecurityDescriptor : Option (List Nat)
  FileAttributes : Nat
  ExtendedAttributes : Option (List ExtendedAttribute)
  CustomMetadata : Option (List CustomMetadata)
  Tags : Option (List String)
deriving DecidableEq, Repr

/-- `if x == nil { x = make([]T, 0) }`: replace a nil slice by an empty
one. -/
def fixNil {A : Type} (x : Option (List A)) : Option (List A) :=
  match x with
  | none => some []
  | some l => some l

/-- `FileEntryFromBytes`: `msgpack.Unmarshal` comes from a library outside
src/ and is abstracted as the `unmarshal` parameter (`none` = decode error);
the nil-default fixups that follow it are translated from the source. -/
def FileEntryFromBytes (unmarshal : List Nat → Option FileEntry)
    (serialized : List Nat) : Option FileEntry :=
  match unmarshal serialized with
  | none => none
  | some f0 =>
      let f1 :=
        match f0.Object with
        | some obj =>
            { f0 with Object := some { obj with
                CustomMetadata := fixNil obj.CustomMetadata
                Tags := fixNil obj.Tags } }
        | none => f0
      some { f1 with
        AlternateDataStreams := fixNil f1.AlternateDataStreams
        SecurityDescriptor := fixNil f1.SecurityDescriptor
        ExtendedAttributes := fixNil f1.ExtendedAttributes
        CustomMetadata := fixNil f1.CustomMetadata
        Tags := fixNil f1.Tags }

/-- Modelled from the spec: `importer.ScanRecord` is outside src/; the spec
describes a scan record with a record type, stat info, an optional symlink
target and an extended-attributes map `map[string][]byte`. The map is given
as its iteration sequence: an association list with pairwise-distinct
names. -/
structure ScanRecord where
  RecordType : Nat
  FileInfo : Nat
  Target : String
  ExtendedAttributes : List (String × List Nat)
deriving DecidableEq, Repr

/-- `NewFileEntry(parentPath, record)`: collect the record's extended
attributes in map-iteration order, sort them by name (`sort.Slice` with a
name-based comparison; modelled with `mergeSort`, which agrees with any
comparison sort whenever the names are distinct), and build the entry.
Fields absent from the Go composite literal take their zero values. -/
def NewFileEntry (parentPath : String) (record : ScanRecord) : FileEntry :=
  let target := if record.Target ≠ "" then record.Target else ""
  let attrs := record.ExtendedAttributes.map (fun p => ExtendedAttribute.mk p.1 p.2)
  let sortedAttrs := attrs.mergeSort (fun a b => decide (a.Name ≤ b.Name))
  { Version := VERSION
    ParentPath := parentPath
    RecordType := record.RecordType
    FileInfo := record.FileInfo
    SymlinkTarget := target
    Object := none
    AlternateDataStreams := none
    SecurityDescriptor := none
    FileAttributes := 0
    ExtendedAttributes := some sortedAttrs
    CustomMetadata := none
    Tags := some [] }

end vfs

end Plakar

namespace Plakar

open state

lemma goFind_append_some {K V : Type} [DecidableEq K] {m1 : List (K × V)} {k : K} {v : V}
    (m2 : List (K × V)) (h : goFind m1 k = some v) : goFind (m1 ++ m2) k = some v := by
  induction m1 with
  | nil => simp [goFind] at h
  | cons head tail ih =>
      obtain ⟨k', v'⟩ := head
      by_cases hk : k' = k
      · simp [goFind, hk] at h ⊢
        exact h
      · simp only [goFind, hk, if_false] at h
        simpa [goFind, hk] using ih h

lemma goFind_append_none {K V : Type} [DecidableEq K] {m1 : List (K × V)} {k : K}
    (m2 : List (K × V)) (h : goFind m1 k = none) : goFind (m1 ++ m2) k = goFind m2 k := by
  induction m1 with
  | nil => simp [goFind]
  | cons head tail ih =>
      obtain ⟨k', v'⟩ := head
      by_cases hk : k' = k
      · simp [goFind, hk] at h
      · simp only [goFind, hk, if_false] at h
        simpa [goFind, hk] using ih h

lemma goFind_singleton {K V : Type} [DecidableEq K] (k' : K) (v' : V) (k : K) :
    goFind [(k', v')] k = if k' = k then some v' else none := by
  simp [goFind]

lemma goFind_eq_none_iff {K V : Type} [DecidableEq K] (m : List (K × V)) (k : K) :
    goFind m k = none ↔ k ∉ goKeys m := by
  induction m with
  | nil => simp [goFind, goKeys]
  | cons head tail ih =>
      obtain ⟨k', v'⟩ := head
      by_cases h : k' = k <;> simp [goFind, goKeys, h] at ih ⊢ <;> tauto

lemma goInsert_eq_append {K V : Type} [DecidableEq K] (m : List (K × V)) (k : K) (v : V)
    (h : goFind m k = none) : goInsert m k v = m ++ [(k, v)] := by
  induction m with
  | nil => simp [goInsert]
  | cons head tail ih =>
      obtain ⟨k', v'⟩ := head
      by_cases hk : k' = k
      · simp [goFind, hk] at h
      · simp only [goFind, hk, if_false] at h
        simp [goInsert, hk, ih h]

lemma wellFormedIntern_new : WellFormedIntern State.new := by
  refine ⟨by simp [State.new, goKeys], by simp [State.new, goKeys], ?_, ?_⟩
  · intro id
    simp [State.new, goContains, goFind]
  · intro mac id
    simp [State.new, goFind]

lemma wellFormedIntern_preserved (st : State) (c : MAC) (h : WellFormedIntern st) :
    WellFormedIntern (st.getOrCreateIdForChecksum c).2 := by
  obtain ⟨hf, hg, hcontig, hinv⟩ := h
  unfold State.getOrCreateIdForChecksum
  cases hfind : goFind st.checksumToId c with
  | some id => exact ⟨hf, hg, hcontig, hinv⟩
  | none =>
      simp only
      set N := st.IdToChecksum.length with hN
      have hgN : goFind st.IdToChecksum N = none := by
        cases hx : goFind st.IdToChecksum N with
        | none => rfl
        | some v =>
            have : goContains st.IdToChecksum N = true := by
              unfold goContains
              rw [hx]
              rfl
            exact absurd ((hcontig N).mp this) (lt_irrefl N)
      have hfEq : goInsert st.checksumToId c N = st.checksumToId ++ [(c, N)] :=
        goInsert_eq_append _ _ _ hfind
      have hgEq : goInsert st.IdToChecksum N c = st.IdToChecksum ++ [(N, c)] :=
        goInsert_eq_append _ _ _ hgN
      have hcmem : c ∉ goKeys st.checksumToId := (goFind_eq_none_iff _ _).mp hfind
      have hNmem : N ∉ goKeys st.IdToChecksum := (goFind_eq_none_iff _ _).mp hgN
      refine ⟨?_, ?_, ?_, ?_⟩
      · rw [hfEq]
        have : goKeys (st.checksumToId ++ [(c, N)]) = goKeys st.checksumToId ++ [c] := by
          simp [goKeys]
        rw [this]
        exact hf.append (List.nodup_singleton c) (by simpa using hcmem)
      · rw [hgEq]
        have : goKeys (st.IdToChecksum ++ [(N, c)]) = goKeys st.IdToChecksum ++ [N] := by
          simp [goKeys]
        rw [this]
        exact hg.append (List.nodup_singleton N) (by simpa using hNmem)
      · intro id
        rw [hgEq]
        unfold goContains
        cases hx : goFind st.IdToChecksum id with
        | some v =>
            have hidlt : id < N := (hcontig id).mp (by unfold goContains; rw [hx]; rfl)
            rw [goFind_append_some _ hx]
            simp only [Option.isSome_some, List.length_append, List.length_cons,
              List.length_nil]
            constructor
            · intro _
              omega
            · intro _
              trivial
        | none =>
            rw [goFind_append_none _ hx, goFind_singleton]
            have hidge : ¬ id < N := by
              intro hlt
              have := (hcontig id).mpr hlt
              unfold goContains at this
              rw [hx] at this
              simp at this
            by_cases hid : N = id
            · subst hid
              simp only [if_pos rfl, Option.isSome_some, List.length_append,
                List.length_cons, List.length_nil]
              constructor
              · intro _
                omega
              · intro _
                trivial
            · simp only [if_neg hid, Option.isSome_none, List.length_append,
                List.length_cons, List.length_nil]
              constructor
              · intro hfalse
                cases hfalse
              · intro hlt
                omega
      · intro mac id
        rw [hfEq, hgEq]
        cases hxf : goFind st.checksumToId mac with
        | some j =>
            rw [goFind_append_some _ hxf]
            have hgj : goFind st.IdToChecksum j = some mac := (hinv mac j).mp hxf
            cases hxg : goFind st.IdToChecksum id with
            | some m =>
                rw [goFind_append_some _ hxg]
                constructor
                · intro hsome
                  have hj : j = id := by simpa using hsome
                  subst hj
                  rw [hxg] at hgj
                  simpa using hgj
                · intro hsome
                  have hm : m = mac := by simpa using hsome
                  subst hm
                  have := (hinv m id).mpr hxg
                  rw [hxf] at this
                  simpa using this
            | none =>
                rw [goFind_append_none _ hxg, goFind_singleton]
                constructor
                · intro hsome
                  have hj : j = id := by simpa using hsome
                  subst hj
                  rw [hxg] at hgj
                  cases hgj
                · intro hsome
                  by_cases hid : N = id
                  · subst hid
                    rw [hgN] at hxg
                    have hmc : c = mac := by
                      by_contra hne
                      simp [if_pos rfl, hne] at hsome
                    subst hmc
                    rw [hfind] at hxf
                    cases hxf
                  · simp [if_neg hid] at hsome
        | none =>
            rw [goFind_append_none _ hxf, goFind_singleton]
            cases hxg : goFind st.IdToChecksum id with
            | some m =>
                rw [goFind_append_some _ hxg]
                constructor
                · intro hsome
                  by_cases hmc : c = mac
                  · have hidN : id = N := by
                      have := hsome
                      rw [if_pos hmc] at this
                      simpa using this.symm
                    subst hidN
                    rw [hgN] at hxg
                    cases hxg
                  · rw [if_neg hmc] at hsome
                    cases hsome
                · intro hsome
                  have hm : m = mac := by simpa using hsome
                  subst hm
                  have := (hinv m id).mpr hxg
                  rw [hxf] at this
                  cases this
            | none =>
                rw [goFind_append_none _ hxg, goFind_singleton]
                by_cases hmc : c = mac <;> by_cases hid : N = id <;>
                  simp [hmc, hid]

lemma wellFormedIntern_internAll (macs : List MAC) :
    ∀ st : State, WellFormedIntern st → WellFormedIntern (internAll st macs) := by
  induction macs with
  | nil => intro st h; exact h
  | cons c rest ih =>
      intro st h
      exact ih _ (wellFormedIntern_preserved st c h)

/-- **C6** — after any sequence of intern calls starting from `New()`, the
intern table is well formed: `IdToChecksum` has exactly the contiguous key
set `[0, N)` and `checksumToId` is its exact inverse; and on such a state
`getOrCreateIdForChecksum` returns the existing id of a previously interned
MAC leaving the state unchanged, while a fresh MAC is assigned the id
`len(IdToChecksum)` with both directions inserted. -/
theorem c6_intern_table_invariant (macs : List MAC) (c : MAC) :
    WellFormedIntern (internAll State.new macs) ∧
    (let st := internAll State.new macs
     match goFind st.checksumToId c with
     | some id => st.getOrCreateIdForChecksum c = (id, st)
     | none =>
         (st.getOrCreateIdForChecksum c).1 = st.IdToChecksum.length ∧
         (st.getOrCreateIdForChecksum c).2 =
           { st with
              checksumToId := goInsert st.checksumToId c st.IdToChecksum.length
              IdToChecksum := goInsert st.IdToChecksum st.IdToChecksum.length c }) := by
  constructor
  · exact wellFormedIntern_internAll macs State.new wellFormedIntern_new
  · cases hfind : goFind (internAll State.new macs).checksumToId c with
    | some id => simp [State.getOrCreateIdForChecksum, hfind]
    | none => simp [State.getOrCreateIdForChecksum, hfind]

lemma contentIn_nil (st : State) (m : MAC) : contentIn [] st m = none := by
  unfold contentIn
  cases goFind st.checksumToId m <;> simp [goFind]

lemma decNat_enc (n : Nat) (rest : List Nat) : decNat (encNat n ++ rest) = some (n, rest) := by
  induction n with
  | zero => simp [encNat, decNat]
  | succ k ih =>
      have h : encNat (k + 1) ++ rest = 1 :: (encNat k ++ rest) := by
        simp [encNat, List.replicate_succ]
      rw [h]
      simp [decNat, ih]

lemma decPair_enc {A B : Type} {f : A → List Nat} {g : B → List Nat}
    {df : List Nat → Option (A × List Nat)} {dg : List Nat → Option (B × List Nat)}
    (hf : ∀ a rest, df (f a ++ rest) = some (a, rest))
    (hg : ∀ b rest, dg (g b ++ rest) = some (b, rest)) :
    ∀ (p : A × B) (rest : List Nat), decPair df dg (encPair f g p ++ rest) = some (p, rest) := by
  intro p rest
  obtain ⟨a, b⟩ := p
  have h : encPair f g (a, b) ++ rest = f a ++ (g b ++ rest) := by
    simp [encPair]
  rw [h]
  simp [decPair, hf, hg]

lemma decCount_enc {A : Type} {f : A → List Nat} {df : List Nat → Option (A × List Nat)}
    (h : ∀ a rest, df (f a ++ rest) = some (a, rest)) :
    ∀ (l : List A) (rest : List Nat),
      decCount df l.length ((l.foldr (fun a acc => f a ++ acc) []) ++ rest) = some (l, rest) := by
  intro l
  induction l with
  | nil => intro rest; simp [decCount]
  | cons a tail ih =>
      intro rest
      have hfold : ((a :: tail).foldr (fun x acc => f x ++ acc) []) ++ rest =
          f a ++ ((tail.foldr (fun x acc => f x ++ acc) []) ++ rest) := by
        simp
      rw [hfold]
      simp [decCount, h, ih]

lemma decSeq_enc {A : Type} {f : A → List Nat} {df : List Nat → Option (A × List Nat)}
    (h : ∀ a rest, df (f a ++ rest) = some (a, rest)) :
    ∀ (l : List A) (rest : List Nat), decSeq df (encSeq f l ++ rest) = some (l, rest) := by
  intro l rest
  have hs : encSeq f l ++ rest =
      encNat l.length ++ ((l.foldr (fun a acc => f a ++ acc) []) ++ rest) := by
    simp [encSeq]
  rw [hs]
  simp [decSeq, decNat_enc, decCount_enc h]

lemma decLocation_enc (loc : Location) (rest : List Nat) :
    decLocation (encLocation loc ++ rest) = some (loc, rest) := by
  obtain ⟨p, o, len⟩ := loc
  have h : encLocation ⟨p, o, len⟩ ++ rest =
      encNat p ++ (encNat o ++ (encNat len ++ rest)) := by
    simp [encLocation]
  rw [h]
  simp [decLocation, decNat_enc]

lemma msgpackUnmarshal_marshal (st : State) (rest : List Nat) :
    msgpackUnmarshal (msgpackMarshal st ++ rest) = some (unmarshalImage st, rest) := by
  have hIdPair : ∀ (p : Nat × Nat) r,
      decPair decNat decNat (encPair encNat encNat p ++ r) = some (p, r) :=
    decPair_enc decNat_enc decNat_enc
  have hLocPair : ∀ (p : Nat × Location) r,
      decPair decNat decLocation (encPair encNat encLocation p ++ r) = some (p, r) :=
    decPair_enc decNat_enc decLocation_enc
  have hm : msgpackMarshal st ++ rest =
      encSeq (encPair encNat encNat) st.IdToChecksum ++
      (encSeq (encPair encNat encLocation) st.Chunks ++
      (encSeq (encPair encNat encLocation) st.Objects ++
      (encSeq (encPair encNat encLocation) st.Files ++
      (encSeq (encPair encNat encLocation) st.Directories ++
      (encSeq (encPair encNat encLocation) st.Blobs ++
      (encNat st.Metadata.Version ++ (encNat st.Metadata.CreationTime ++
      (encSeq encNat st.Metadata.Extends ++ rest)))))))) := by
    simp [msgpackMarshal]
  rw [hm]
  simp [msgpackUnmarshal, decSeq_enc hIdPair, decSeq_enc hLocPair,
    decSeq_enc decNat_enc, decNat_enc, unmarshalImage]

lemma goFind_mem_values {K V : Type} [DecidableEq K] {m : List (K × V)} {k : K} {v : V}
    (h : goFind m k = some v) : v ∈ m.map Prod.snd := by
  induction m with
  | nil => simp [goFind] at h
  | cons head tail ih =>
      obtain ⟨k', v'⟩ := head
      by_cases hk : k' = k
      · simp [goFind, hk] at h
        simp [h]
      · simp only [goFind, hk, if_false] at h
        simp [ih h]

lemma foldl_goInsert_eq_swapMap :
    ∀ (g : List (Nat × MAC)) (acc : List (MAC × Nat)),
      (∀ p ∈ g, p.2 ∉ goKeys acc) → ((g.map Prod.snd).Nodup) →
      g.foldl (fun a p => goInsert a p.2 p.1) acc = acc ++ g.map (fun p => (p.2, p.1)) := by
  intro g
  induction g with
  | nil => intro acc _ _; simp
  | cons p tail ih =>
      intro acc hmem hnd
      have hnone : goFind acc p.2 = none :=
        (goFind_eq_none_iff _ _).mpr (hmem p (by simp))
      have hstep : goInsert acc p.2 p.1 = acc ++ [(p.2, p.1)] :=
        goInsert_eq_append _ _ _ hnone
      have hnd' : (tail.map Prod.snd).Nodup := by
        simpa using hnd.of_cons
      have hmem' : ∀ q ∈ tail, q.2 ∉ goKeys (acc ++ [(p.2, p.1)]) := by
        intro q hq hqmem
        have hkeys : goKeys (acc ++ [(p.2, p.1)]) = goKeys acc ++ [p.2] := by
          simp [goKeys]
        rw [hkeys] at hqmem
        rcases List.mem_append.mp hqmem with hL | hR
        · exact hmem q (by simp [hq]) hL
        · have hq2 : q.2 = p.2 := by simpa using hR
          have hnd2 := hnd
          rw [List.map_cons] at hnd2
          exact (List.nodup_cons.mp hnd2).1 (List.mem_map.mpr ⟨q, hq, hq2⟩)
      calc (p :: tail).foldl (fun a q => goInsert a q.2 q.1) acc
      _ = tail.foldl (fun a q => goInsert a q.2 q.1) (acc ++ [(p.2, p.1)]) := by
        simp [hstep]
      _ = (acc ++ [(p.2, p.1)]) ++ tail.map (fun q => (q.2, q.1)) := ih _ hmem' hnd'
      _ = acc ++ (p :: tail).map (fun q => (q.2, q.1)) := by simp

lemma goFind_swapMap_iff (g : List (Nat × MAC)) (hk : (goKeys g).Nodup)
    (hv : (g.map Prod.snd).Nodup) (mac : MAC) (id : Nat) :
    goFind (g.map (fun p => (p.2, p.1))) mac = some id ↔ goFind g id = some mac := by
  induction g with
  | nil => simp [goFind]
  | cons p tail ih =>
      obtain ⟨k, v⟩ := p
      have hkc : (k :: goKeys tail).Nodup := by
        have := hk
        rw [goKeys, List.map_cons] at this
        exact this
      have hvc : (v :: tail.map Prod.snd).Nodup := by
        have := hv
        rw [List.map_cons] at this
        exact this
      have hk' : (goKeys tail).Nodup := hkc.of_cons
      have hv' : (tail.map Prod.snd).Nodup := hvc.of_cons
      have hknot : k ∉ goKeys tail := (List.nodup_cons.mp hkc).1
      have hvnot : v ∉ tail.map Prod.snd := (List.nodup_cons.mp hvc).1
      by_cases hvm : v = mac
      · subst hvm
        by_cases hki : k = id
        · subst hki
          simp [goFind]
        · simp only [List.map_cons, goFind, if_pos rfl, if_neg hki]
          constructor
          · intro hsome
            have : k = id := by simpa using hsome
            exact absurd this hki
          · intro hsome
            exact absurd (goFind_mem_values hsome) hvnot
      · by_cases hki : k = id
        · subst hki
          simp only [List.map_cons, goFind, if_neg hvm, if_pos rfl]
          constructor
          · intro hsome
            have hmm := goFind_mem_values hsome
            obtain ⟨pr, hpr, h2⟩ := List.mem_map.mp hmm
            obtain ⟨q, hq, hqe⟩ := List.mem_map.mp hpr
            have hq1 : q.1 = k := by
              rw [← hqe] at h2
              exact h2
            exact absurd (List.mem_map.mpr ⟨q, hq, hq1⟩) hknot
          · intro hsome
            have : v = mac := by simpa using hsome
            exact absurd this hvm
        · simp only [List.map_cons, goFind, if_neg hvm, if_neg hki]
          exact ih hk' hv'

lemma rebuildChecksums_exactInverse (st : State)
    (hk : (goKeys st.IdToChecksum).Nodup) (hv : (st.IdToChecksum.map Prod.snd).Nodup) :
    exactInverse st.rebuildChecksums.checksumToId st.rebuildChecksums.IdToChecksum := by
  intro mac id
  have hfold : st.IdToChecksum.foldl (fun a p => goInsert a p.2 p.1) [] =
      st.IdToChecksum.map (fun p => (p.2, p.1)) := by
    have := foldl_goInsert_eq_swapMap st.IdToChecksum []
      (by intro p _ hp; simp [goKeys] at hp) hv
    simpa using this
  show goFind (st.IdToChecksum.foldl (fun a p => goInsert a p.2 p.1) []) mac = some id ↔
      goFind st.IdToChecksum id = some mac
  rw [hfold]
  exact goFind_swapMap_iff st.IdToChecksum hk hv mac id

/-- **C4** (amended) — for every state whose `Metadata.Version` is the
supported version and whose `IdToChecksum` table is a genuine Go map
(distinct id keys) assigning distinct MACs to distinct ids (as the intern
invariant guarantees), `NewFromBytes(Serialize(s))` succeeds and returns a
state equal to `s` on every persisted field — `IdToChecksum`, the five kind
maps and the `Metadata` with its `Extends` lineage — with `checksumToId`
rebuilt as the exact inverse of `IdToChecksum`. -/
theorem c4_state_roundtrip (s : State)
    (hver : s.Metadata.Version = VERSION)
    (hkeys : (goKeys s.IdToChecksum).Nodup)
    (hinj : (s.IdToChecksum.map Prod.snd).Nodup) :
    ∃ t, NewFromBytes s.Serialize = some t ∧
      t.IdToChecksum = s.IdToChecksum ∧ t.Chunks = s.Chunks ∧ t.Objects = s.Objects ∧
      t.Files = s.Files ∧ t.Directories = s.Directories ∧ t.Blobs = s.Blobs ∧
      t.Metadata = s.Metadata ∧ exactInverse t.checksumToId t.IdToChecksum := by
  have hlen : s.Serialize.length = (msgpackMarshal s).length + 4 := by
    simp [State.Serialize, u32le]
  have hblen : (msgpackMarshal s).length = s.Serialize.length - 4 := by omega
  have htake : s.Serialize.take (s.Serialize.length - 4) = msgpackMarshal s :=
    List.take_left' hblen
  have hdrop : s.Serialize.drop (s.Serialize.length - 4) = u32le s.Metadata.Version :=
    List.drop_left' hblen
  refine ⟨(unmarshalImage s).rebuildChecksums, ?_, rfl, rfl, rfl, rfl, rfl, rfl, rfl, ?_⟩
  · unfold NewFromBytes
    rw [if_neg (by omega), hdrop, htake, hver]
    rw [if_neg (by decide)]
    rw [show msgpackUnmarshal (msgpackMarshal s) = some (unmarshalImage s, []) from by
      simpa using msgpackUnmarshal_marshal s []]
    simp
  · exact rebuildChecksums_exactInverse (unmarshalImage s) hkeys hinj

set_option maxRecDepth 8000 in
/-- Witness for `c4_state_roundtrip` at the state produced by interning MACs
`3` and `5` into a fresh state. -/
theorem c4_state_roundtrip_witness :
    ∃ t, NewFromBytes (internAll State.new [3, 5]).Serialize = some t ∧
      t.IdToChecksum = (internAll State.new [3, 5]).IdToChecksum ∧
      t.Chunks = (internAll State.new [3, 5]).Chunks ∧
      t.Objects = (internAll State.new [3, 5]).Objects ∧
      t.Files = (internAll State.new [3, 5]).Files ∧
      t.Directories = (internAll State.new [3, 5]).Directories ∧
      t.Blobs = (internAll State.new [3, 5]).Blobs ∧
      t.Metadata = (internAll State.new [3, 5]).Metadata ∧
      exactInverse t.checksumToId t.IdToChecksum :=
  c4_state_roundtrip (internAll State.new [3, 5]) (by decide) (by decide) (by decide)

set_option maxRecDepth 10000 in
/-- **C4** (counterexample) — the claim as stated fails for the version-100
state `c4Bad`, whose `IdToChecksum` registers MAC `7` under both id `0` and
id `1`: the round-trip succeeds and preserves the persisted fields, but the
rebuilt `checksumToId` maps `7` to `1` only, so it is not the exact inverse
of `IdToChecksum` (nothing can be). -/
theorem c4_no_exact_inverse_for_duplicate_macs :
    NewFromBytes c4Bad.Serialize = some c4BadDecoded ∧
    goFind c4BadDecoded.IdToChecksum 0 = some 7 ∧
    goFind c4BadDecoded.checksumToId 7 = some 1 ∧
    ¬ exactInverse c4BadDecoded.checksumToId c4BadDecoded.IdToChecksum := by
  refine ⟨by decide, by decide, by decide, fun h => ?_⟩
  have h1 := (h 7 0).mpr (by decide)
  rw [show goFind c4BadDecoded.checksumToId 7 = some 1 from by decide] at h1
  simp at h1

/-- **C1** — the spec requires every kind's `SetPackfileFor*` to insert into
that kind's own map, read back by `GetSubpartFor*`. The code honours this for
chunks and objects, but `SetPackfileForFile`, `SetPackfileForDirectory` and
`SetPackfileForBlob` assign into the `Objects` map, so the registration is
invisible to the kind's own lookup: registering MAC `2` in packfile `1` at
`(3, 4)` and reading it back yields `none` for the file, directory and blob
kinds. -/
theorem c1_set_then_get_per_kind :
    ((State.new.SetPackfileForChunk 1 2 3 4).GetSubpartForChunk 2).1 = some (1, 3, 4) ∧
    ((State.new.SetPackfileForObject 1 2 3 4).GetSubpartForObject 2).1 = some (1, 3, 4) ∧
    ((State.new.SetPackfileForFile 1 2 3 4).GetSubpartForFile 2).1 = none ∧
    ((State.new.SetPackfileForFile 1 2 3 4).GetSubpartForObject 2).1 = some (1, 3, 4) ∧
    ((State.new.SetPackfileForDirectory 1 2 3 4).GetSubpartForDirectory 2).1 = none ∧
    ((State.new.SetPackfileForDirectory 1 2 3 4).GetSubpartForObject 2).1 = some (1, 3, 4) ∧
    ((State.new.SetPackfileForBlob 1 2 3 4).GetSubpartForBlob 2).1 = none ∧
    ((State.new.SetPackfileForBlob 1 2 3 4).GetSubpartForObject 2).1 = some (1, 3, 4) := by
  decide

/-- **C2** — `exists(kind, mac)` must consult only that kind's map. The code
does so for chunks, objects, files and directories, but `BlobExists` reads
the `Directories` map: a blob registered through `SetPackfileForBlob` is
reported absent, while a state whose `Directories` map holds MAC `9` makes
`BlobExists 9` answer `true` with an empty `Blobs` map. -/
theorem c2_exists_consults_own_map :
    ((State.new.SetPackfileForChunk 1 2 3 4).ChunkExists 2).1 = true ∧
    (State.new.ChunkExists 2).1 = false ∧
    ((State.new.SetPackfileForObject 1 2 3 4).ObjectExists 2).1 = true ∧
    (State.new.ObjectExists 2).1 = false ∧
    ((State.new.SetPackfileForBlob 1 2 3 4).BlobExists 2).1 = false ∧
    (let stDir : State :=
      { State.new with
          checksumToId := [(9, 0)]
          IdToChecksum := [(0, 9)]
          Directories := [(0, { Packfile := 0, Offset := 1, Length := 1 })] }
     (stDir.BlobExists 9).1 = true ∧ stDir.Blobs = []) := by
  decide

/-- **C3** — merge commutativity fails on the code: `mergeExA` and `mergeExB`
agree on every (kind, MAC) pair present in both (vacuously: no pair is in
both), yet merging in the two orders yields different per-kind contents for
MAC `20`, because `SetPackfileForFile` writes the `Objects` map and
overwrites the object location already registered there. -/
theorem c3_merge_not_commutative :
    StatesAgree mergeExA mergeExB ∧
    (mergeExA.Merge 0 mergeExB).objectsContent 20 = some (30, 9, 11) ∧
    (mergeExB.Merge 0 mergeExA).objectsContent 20 = some (10, 5, 7) ∧
    (mergeExA.Merge 0 mergeExB).filesContent 20 = none ∧
    (mergeExB.Merge 0 mergeExA).filesContent 20 = some (30, 9, 11) ∧
    (mergeExA.Merge 0 mergeExB).objectsContent 20 ≠
      (mergeExB.Merge 0 mergeExA).objectsContent 20 := by
  refine ⟨⟨?_, ?_, ?_, ?_, ?_⟩, by decide, by decide, by decide, by decide, by decide⟩
  · intro m la lb ha _
    have : mergeExA.chunksContent m = none := by
      have h : mergeExA.Chunks = [] := rfl
      rw [State.chunksContent, h, contentIn_nil]
    simp [this] at ha
  · intro m la lb _ hb
    have : mergeExB.objectsContent m = none := by
      have h : mergeExB.Objects = [] := rfl
      rw [State.objectsContent, h, contentIn_nil]
    simp [this] at hb
  · intro m la lb ha _
    have : mergeExA.filesContent m = none := by
      have h : mergeExA.Files = [] := rfl
      rw [State.filesContent, h, contentIn_nil]
    simp [this] at ha
  · intro m la lb ha _
    have : mergeExA.directoriesContent m = none := by
      have h : mergeExA.Directories = [] := rfl
      rw [State.directoriesContent, h, contentIn_nil]
    simp [this] at ha
  · intro m la lb ha _
    have : mergeExA.blobsContent m = none := by
      have h : mergeExA.Blobs = [] := rfl
      rw [State.blobsContent, h, contentIn_nil]
    simp [this] at ha

/-- **C5** — re-registration must be a no-op that leaves the dirty flag
clear. For the chunk kind the code is correct: a second
`SetPackfileForChunk` for MAC `2` changes nothing and leaves `dirty` reset.
For the file kind the first registration lands in `Objects` (never in
`Files`), so the second call finds `Files` still without MAC `2`, overwrites
the `Objects` entry with the new location `(5, 6, 7)` and sets the dirty flag
again — two insertions and two dirty transitions for one (kind, MAC). -/
theorem c5_reregistration :
    (let st1 := State.new.SetPackfileForChunk 1 2 3 4
     let st2 := st1.ResetDirty.SetPackfileForChunk 5 2 6 7
     st1.Dirty = true ∧ st2.Chunks = st1.Chunks ∧
     st2.chunksContent 2 = some (1, 3, 4) ∧ st2.Dirty = false) ∧
    (let st1 := State.new.SetPackfileForFile 1 2 3 4
     let st2 := st1.ResetDirty.SetPackfileForFile 5 2 6 7
     st1.Dirty = true ∧ st1.Files = [] ∧
     st1.objectsContent 2 = some (1, 3, 4) ∧
     st2.objectsContent 2 = some (5, 6, 7) ∧ st2.Dirty = true) := by
  decide

end Plakar

namespace Plakar

open snapshot

/-- **C7** — the byte string `PutPackfile` flushes is exactly
`data_area || sealed(index) || sealed(footer) || version:u32 LE ||
footer_length:u8`; whenever the sealed footer fits the one-byte length field
(≤ 255, which the spec guarantees for the fixed footer schema), the last 5
bytes are the version followed by the sealed footer's length, and the
backend key is the repository hash of the entire byte string. -/
theorem c7_putpackfile_layout (encode : List Nat → List Nat)
    (checksum : List Nat → MAC) (pack : PackFile)
    (hfoot : (encode pack.serializedFooter).length ≤ 255) :
    putPackfileSerialized encode pack =
      pack.serializedData ++ encode pack.serializedIndex ++ encode pack.serializedFooter ++
        u32le pack.footerVersion ++ [(encode pack.serializedFooter).length] ∧
    (putPackfileSerialized encode pack).drop
        ((putPackfileSerialized encode pack).length - 5) =
      u32le pack.footerVersion ++ [(encode pack.serializedFooter).length] ∧
    (putPackfileWrite encode checksum pack).1 =
      checksum (putPackfileWrite encode checksum pack).2 := by
  have hmod : (encode pack.serializedFooter).length % 256 =
      (encode pack.serializedFooter).length :=
    Nat.mod_eq_of_lt (by omega)
  have h1 : putPackfileSerialized encode pack =
      (pack.serializedData ++ encode pack.serializedIndex ++ encode pack.serializedFooter) ++
        (u32le pack.footerVersion ++ [(encode pack.serializedFooter).length]) := by
    simp [putPackfileSerialized, hmod]
  refine ⟨?_, ?_, rfl⟩
  · rw [h1]
    simp
  · rw [h1]
    apply List.drop_left'
    simp [u32le]
    omega

/-- Witness for `c7_putpackfile_layout`: sealing prepends a `9` byte, the
repository hash is the length, the packfile components are `[1, 2]`, `[3]`,
`[4]` with footer version `7`. -/
theorem c7_putpackfile_layout_witness :
    (let pack : PackFile := ⟨[1, 2], [3], [4], 7⟩
     let encode : List Nat → List Nat := fun l => 9 :: l
     putPackfileSerialized encode pack =
       pack.serializedData ++ encode pack.serializedIndex ++ encode pack.serializedFooter ++
         u32le pack.footerVersion ++ [(encode pack.serializedFooter).length] ∧
     (putPackfileSerialized encode pack).drop
         ((putPackfileSerialized encode pack).length - 5) =
       u32le pack.footerVersion ++ [(encode pack.serializedFooter).length] ∧
     (putPackfileWrite encode List.length pack).1 =
       List.length (putPackfileWrite encode List.length pack).2) :=
  c7_putpackfile_layout (fun l => 9 :: l) List.length ⟨[1, 2], [3], [4], 7⟩ (by decide)

/-- **C8** (counterexample) — after `Commit` closes the packer channel,
`PutChunk` does not return a `SessionClosed` error (no such error exists in
the code): with a codec that succeeds, it hits Go's send-on-closed-channel
runtime panic instead of returning any error. -/
theorem c8_put_after_close_is_panic_not_error :
    (let closedSnap := Snapshot.commitCloseChannel { packerChanClosed := false, packerChan := [] }
     Snapshot.PutChunk some closedSnap 2 [7] = GoResult.panicked "send on closed channel" ∧
     (Snapshot.PutChunk some closedSnap 2 [7]).isErr = false) := by
  decide

/-- **C8** (amended) — once `Commit` has closed the packer channel, no Put*
ever succeeds: whenever the codec seals the payload successfully, each of
`PutChunk`, `PutObject`, `PutFile`, `PutDirectory`, `PutData` and `PutHeader`
terminates abnormally with Go's send-on-closed-channel panic (the code
defines no `SessionClosed` error). -/
theorem c8_put_after_commit_panics (encode : List Nat → Option (List Nat))
    (snap : Snapshot) (checksum : MAC) (data enc : List Nat)
    (henc : encode data = some enc) :
    Snapshot.PutChunk encode snap.commitCloseChannel checksum data =
      GoResult.panicked "send on closed channel" ∧
    Snapshot.PutObject encode snap.commitCloseChannel checksum data =
      GoResult.panicked "send on closed channel" ∧
    Snapshot.PutFile encode snap.commitCloseChannel checksum data =
      GoResult.panicked "send on closed channel" ∧
    Snapshot.PutDirectory encode snap.commitCloseChannel checksum data =
      GoResult.panicked "send on closed channel" ∧
    Snapshot.PutData encode snap.commitCloseChannel checksum data =
      GoResult.panicked "send on closed channel" ∧
    Snapshot.PutHeader encode snap.commitCloseChannel checksum data =
      GoResult.panicked "send on closed channel" := by
  simp [Snapshot.PutChunk, Snapshot.PutObject, Snapshot.PutFile, Snapshot.PutDirectory,
    Snapshot.PutData, Snapshot.PutHeader, henc, sendPackerMsg, Snapshot.commitCloseChannel]

/-- Witness for `c8_put_after_commit_panics` with the identity codec on an
empty session. -/
theorem c8_put_after_commit_panics_witness :
    Snapshot.PutChunk some (Snapshot.commitCloseChannel ⟨false, []⟩) 2 [7] =
      GoResult.panicked "send on closed channel" ∧
    Snapshot.PutObject some (Snapshot.commitCloseChannel ⟨false, []⟩) 2 [7] =
      GoResult.panicked "send on closed channel" ∧
    Snapshot.PutFile some (Snapshot.commitCloseChannel ⟨false, []⟩) 2 [7] =
      GoResult.panicked "send on closed channel" ∧
    Snapshot.PutDirectory some (Snapshot.commitCloseChannel ⟨false, []⟩) 2 [7] =
      GoResult.panicked "send on closed channel" ∧
    Snapshot.PutData some (Snapshot.commitCloseChannel ⟨false, []⟩) 2 [7] =
      GoResult.panicked "send on closed channel" ∧
    Snapshot.PutHeader some (Snapshot.commitCloseChannel ⟨false, []⟩) 2 [7] =
      GoResult.panicked "send on closed channel" :=
  c8_put_after_commit_panics some ⟨false, []⟩ 2 [7] [7] rfl

end Plakar

namespace Plakar

open vfs

lemma fixNil_isSome {A : Type} (x : Option (List A)) : (fixNil x).isSome = true := by
  cases x <;> rfl

/-- **C9** — every `FileEntry` that `FileEntryFromBytes` returns has non-nil
`AlternateDataStreams`, `SecurityDescriptor`, `ExtendedAttributes`,
`CustomMetadata` and `Tags` collections, and when its `Object` is present,
that object's `CustomMetadata` and `Tags` are non-nil as well — for any
decoder the msgpack layer may implement. -/
theorem c9_fileentry_defaults (unmarshal : List Nat → Option FileEntry)
    (serialized : List Nat) (f : FileEntry)
    (h : FileEntryFromBytes unmarshal serialized = some f) :
    f.AlternateDataStreams.isSome = true ∧ f.SecurityDescriptor.isSome = true ∧
    f.ExtendedAttributes.isSome = true ∧ f.CustomMetadata.isSome = true ∧
    f.Tags.isSome = true ∧
    (∀ obj, f.Object = some obj →
      obj.CustomMetadata.isSome = true ∧ obj.Tags.isSome = true) := by
  cases hu : unmarshal serialized with
  | none =>
      simp only [FileEntryFromBytes, hu] at h
      exact Option.noConfusion h
  | some f0 =>
      cases ho : f0.Object with
      | none =>
          simp only [FileEntryFromBytes, hu, ho] at h
          injection h with h2
          subst h2
          refine ⟨fixNil_isSome _, fixNil_isSome _, fixNil_isSome _, fixNil_isSome _,
            fixNil_isSome _, ?_⟩
          intro obj hobj
          simp [ho] at hobj
      | some obj0 =>
          simp only [FileEntryFromBytes, hu, ho] at h
          injection h with h2
          subst h2
          refine ⟨fixNil_isSome _, fixNil_isSome _, fixNil_isSome _, fixNil_isSome _,
            fixNil_isSome _, ?_⟩
          intro obj hobj
          injection hobj with h3
          subst h3
          exact ⟨fixNil_isSome _, fixNil_isSome _⟩

/-- A raw decoded entry with every nil-able collection nil and an object
whose collections are nil. -/
def c9SampleRaw : FileEntry :=
  { Version := 0, ParentPath := "", RecordType := 0, FileInfo := 0,
    SymlinkTarget := "",
    Object := some { ContentType := "", CustomMetadata := none, Tags := none },
    AlternateDataStreams := none, SecurityDescriptor := none, FileAttributes := 0,
    ExtendedAttributes := none, CustomMetadata := none, Tags := none }

/-- `c9SampleRaw` after the nil-default fixups. -/
def c9SampleFixed : FileEntry :=
  { Version := 0, ParentPath := "", RecordType := 0, FileInfo := 0,
    SymlinkTarget := "",
    Object := some { ContentType := "", CustomMetadata := some [], Tags := some [] },
    AlternateDataStreams := some [], SecurityDescriptor := some [], FileAttributes := 0,
    ExtendedAttributes := some [], CustomMetadata := some [], Tags := some [] }

/-- Witness for `c9_fileentry_defaults` on a decoder returning
`c9SampleRaw`. -/
theorem c9_fileentry_defaults_witness :
    c9SampleFixed.AlternateDataStreams.isSome = true ∧
    c9SampleFixed.SecurityDescriptor.isSome = true ∧
    c9SampleFixed.ExtendedAttributes.isSome = true ∧
    c9SampleFixed.CustomMetadata.isSome = true ∧
    c9SampleFixed.Tags.isSome = true ∧
    (∀ obj, c9SampleFixed.Object = some obj →
      obj.CustomMetadata.isSome = true ∧ obj.Tags.isSome = true) :=
  c9_fileentry_defaults (fun _ => some c9SampleRaw) [] c9SampleFixed (by decide)

/-- **C10** — `NewFileEntry` returns its extended attributes sorted in
ascending name order, and the whole entry is a deterministic function of the
record's attribute set: two records equal up to a permutation of the
attribute map's iteration order (names distinct, as map keys are) produce
identical entries. -/
theorem c10_newfileentry_sorted_deterministic (parentPath : String)
    (r r' : ScanRecord)
    (htype : r.RecordType = r'.RecordType) (hinfo : r.FileInfo = r'.FileInfo)
    (htarget : r.Target = r'.Target)
    (hperm : r.ExtendedAttributes.Perm r'.ExtendedAttributes)
    (hnodup : (r.ExtendedAttributes.map Prod.fst).Nodup) :
    (∃ l, (NewFileEntry parentPath r).ExtendedAttributes = some l ∧
        l.Pairwise (fun a b => a.Name ≤ b.Name)) ∧
    NewFileEntry parentPath r = NewFileEntry parentPath r' := by
  have htrans : ∀ a b c : ExtendedAttribute,
      decide (a.Name ≤ b.Name) → decide (b.Name ≤ c.Name) → decide (a.Name ≤ c.Name) := by
    intro a b c hab hbc
    simp only [decide_eq_true_eq] at hab hbc ⊢
    exact le_trans hab hbc
  have htotal : ∀ a b : ExtendedAttribute,
      decide (a.Name ≤ b.Name) || decide (b.Name ≤ a.Name) := by
    intro a b
    simp only [Bool.or_eq_true, decide_eq_true_eq]
    exact le_total _ _
  have sortedLe : ∀ (l : List ExtendedAttribute),
      (l.mergeSort (fun a b => decide (a.Name ≤ b.Name))).Pairwise
        (fun a b => a.Name ≤ b.Name) := by
    intro l
    exact (List.sorted_mergeSort htrans htotal l).imp (fun h => by simpa using h)
  have sortedLt : ∀ (l : List ExtendedAttribute),
      ((l.mergeSort (fun a b => decide (a.Name ≤ b.Name))).map ExtendedAttribute.Name).Nodup →
      (l.mergeSort (fun a b => decide (a.Name ≤ b.Name))).Pairwise
        (fun a b => a.Name < b.Name) := by
    intro l hnd
    have hne : (l.mergeSort (fun a b => decide (a.Name ≤ b.Name))).Pairwise
        (fun a b => a.Name ≠ b.Name) := by
      rw [List.Nodup] at hnd
      exact List.pairwise_map.mp hnd
    exact ((sortedLe l).and hne).imp (fun h => lt_of_le_of_ne h.1 h.2)
  have hAmap : ∀ s : ScanRecord,
      (s.ExtendedAttributes.map (fun p => ExtendedAttribute.mk p.1 p.2)).map
        ExtendedAttribute.Name = s.ExtendedAttributes.map Prod.fst := by
    intro s
    rw [List.map_map]
    rfl
  have hndA : ((r.ExtendedAttributes.map (fun p => ExtendedAttribute.mk p.1 p.2)).map
      ExtendedAttribute.Name).Nodup := by
    rw [hAmap]
    exact hnodup
  have hnodup' : (r'.ExtendedAttributes.map Prod.fst).Nodup :=
    (hperm.map Prod.fst).nodup hnodup
  have hndA' : ((r'.ExtendedAttributes.map (fun p => ExtendedAttribute.mk p.1 p.2)).map
      ExtendedAttribute.Name).Nodup := by
    rw [hAmap]
    exact hnodup'
  have hpermA : (r.ExtendedAttributes.map (fun p => ExtendedAttribute.mk p.1 p.2)).Perm
      (r'.ExtendedAttributes.map (fun p => ExtendedAttribute.mk p.1 p.2)) :=
    hperm.map _
  have hndSortA := (((List.mergeSort_perm
      (r.ExtendedAttributes.map (fun p => ExtendedAttribute.mk p.1 p.2))
      (fun a b => decide (a.Name ≤ b.Name))).map ExtendedAttribute.Name).symm).nodup hndA
  have hndSortA' := (((List.mergeSort_perm
      (r'.ExtendedAttributes.map (fun p => ExtendedAttribute.mk p.1 p.2))
      (fun a b => decide (a.Name ≤ b.Name))).map ExtendedAttribute.Name).symm).nodup hndA'
  have hpermSort : ((r.ExtendedAttributes.map (fun p => ExtendedAttribute.mk p.1 p.2)).mergeSort
      (fun a b => decide (a.Name ≤ b.Name))).Perm
      ((r'.ExtendedAttributes.map (fun p => ExtendedAttribute.mk p.1 p.2)).mergeSort
      (fun a b => decide (a.Name ≤ b.Name))) :=
    (List.mergeSort_perm _ _).trans (hpermA.trans (List.mergeSort_perm _ _).symm)
  haveI : IsAntisymm ExtendedAttribute (fun a b => a.Name < b.Name) :=
    ⟨fun a b hab hba => (lt_asymm hab hba).elim⟩
  have hs : (r.ExtendedAttributes.map (fun p => ExtendedAttribute.mk p.1 p.2)).mergeSort
      (fun a b => decide (a.Name ≤ b.Name)) =
      (r'.ExtendedAttributes.map (fun p => ExtendedAttribute.mk p.1 p.2)).mergeSort
      (fun a b => decide (a.Name ≤ b.Name)) :=
    List.eq_of_perm_of_sorted hpermSort (sortedLt _ hndSortA) (sortedLt _ hndSortA')
  constructor
  · exact ⟨_, rfl, sortedLe _⟩
  · simp only [NewFileEntry]
    rw [htype, hinfo, htarget, hs]

/-- Witness for `c10_newfileentry_sorted_deterministic`: the attribute map
`{a: [2], b: [1]}` iterated in its two possible orders. -/
theorem c10_newfileentry_witness :
    (∃ l, (NewFileEntry "p" ⟨0, 0, "", [("b", [1]), ("a", [2])]⟩).ExtendedAttributes = some l ∧
        l.Pairwise (fun a b => a.Name ≤ b.Name)) ∧
    NewFileEntry "p" ⟨0, 0, "", [("b", [1]), ("a", [2])]⟩ =
      NewFileEntry "p" ⟨0, 0, "", [("a", [2]), ("b", [1])]⟩ :=
  c10_newfileentry_sorted_deterministic "p" ⟨0, 0, "", [("b", [1]), ("a", [2])]⟩
    ⟨0, 0, "", [("a", [2]), ("b", [1])]⟩ rfl rfl rfl (by decide) (by decide)

end Plakar
